import Mathlib

/-!
Verification development for the instant-navigation engine of the
Billboard Hot 100 site: the session-tier Navigation Cache Manager
(`src/scripts/prefetch-navigation.ts`, two variants) and the
Persistent Cache Worker (service worker), plus the worker
registration script (`src/scripts/register-service-worker.ts`).

Each definition is a shallow embedding of the corresponding source
function; theorems settle the specification's claims about them.
-/

namespace PrefetchNav

/-! ## URLs and locations

A resolved URL is modelled by its components; `href` is the serialized
form, matching the `URL` object's `origin`/`pathname`/`search`/`hash`
fields and `href` accessor used by the script. -/

structure Url where
  origin : String
  pathname : String
  search : String
  hash : String
deriving DecidableEq, Repr

def Url.href (u : Url) : String :=
  u.origin ++ u.pathname ++ u.search ++ u.hash

/-- `isSameDocumentNavigation` (prefetch-navigation.ts, first variant):
the target shares `pathname` and `search` with the current location. -/
def isSameDocumentNavigation (url : Url) (location : Url) : Bool :=
  url.pathname == location.pathname && url.search == location.search

/-! ## Serialized head nodes and page entries -/

inductive HeadTagKind where
  | style
  | link
deriving DecidableEq, Repr

/-- `SerializedHeadNode`: tag kind, attribute set (in insertion order, as
a JS object preserves it), and optional textual content (inline style). -/
structure SerializedHeadNode where
  tagName : HeadTagKind
  attributes : List (String × String)
  content : Option String
deriving DecidableEq, Repr

/-- `PageEntry`: captured snapshot of one document. -/
structure PageEntry where
  html : String
  title : String
  headNodes : List SerializedHeadNode
deriving DecidableEq, Repr

/-- `Map.set` on an association list keyed by URL string: overwrite any
previous binding for the key. -/
def setEntry (m : List (String × PageEntry)) (k : String) (v : PageEntry) :
    List (String × PageEntry) :=
  (k, v) :: m.filter (fun p => p.1 ≠ k)

/-! ## The session tier's fetch-and-cache state machine

`fetchAndCache` consults the `cache` map, then the `inflight` map, and
only issues a network request when both miss.  We track, besides the two
maps, the multiset of network requests actually issued and not yet
settled (`netActive`), so that the one-request-per-URL invariant is a
statement about real fetches. -/

structure SessionState where
  cache : List (String × PageEntry)
  inflight : List String
  netActive : List String
deriving Repr

/-- What a call to `fetchAndCache` does synchronously. -/
inductive FetchCall where
  | cachedHit (e : PageEntry)
  | sharedAwait
  | started
deriving DecidableEq, Repr

/-- The synchronous prefix of `fetchAndCache` (lines 240–279, first
variant; identical in the second): cache hit returns the entry, an
in-flight href returns the shared promise, otherwise a fetch is issued
and recorded in the in-flight table. -/
def fetchAndCacheStep (s : SessionState) (href : String) :
    SessionState × FetchCall :=
  match s.cache.lookup href with
  | some e => (s, .cachedHit e)
  | none =>
    if href ∈ s.inflight then (s, .sharedAwait)
    else ({ s with inflight := href :: s.inflight,
                   netActive := href :: s.netActive }, .started)

/-- The observable outcome of one issued network fetch: either the
promise rejected (network error) or a response arrived, carrying the
fields the `.then` continuation inspects. -/
structure FetchResponse where
  ok : Bool
  status : Nat
  contentRootHtml : Option String
  docTitle : String
  docHeadNodes : List SerializedHeadNode
deriving DecidableEq, Repr

inductive FetchOutcome where
  | response (r : FetchResponse)
  | networkError
deriving DecidableEq, Repr

/-- The `.then` continuation of the fetch inside `fetchAndCache`:
non-OK responses and documents lacking `#content-root` throw; otherwise
a `PageEntry` is built (`doc.title || document.title`). -/
def processResponse (fallbackTitle : String) (r : FetchResponse) :
    Except String PageEntry :=
  if !r.ok then .error ("Failed to fetch: " ++ toString r.status)
  else
    match r.contentRootHtml with
    | none => .error "Missing content root in response"
    | some html =>
      .ok { html := html
            title := if r.docTitle == "" then fallbackTitle else r.docTitle
            headNodes := r.docHeadNodes }

/-- How the settled promise of one issued fetch resolves: a rejected
`fetch` call rejects the chain, a response goes through the `.then`
continuation. -/
def settleResult (fallbackTitle : String) (o : FetchOutcome) :
    Except String PageEntry :=
  match o with
  | .networkError => .error "TypeError: Failed to fetch"
  | .response r => processResponse fallbackTitle r

/-- Settling of the fetch for `href`: the `.then` continuation stores the
entry on success, and the `.finally` clause removes the in-flight entry
in either case; the settled network request leaves `netActive`. -/
def settleStep (fallbackTitle : String) (s : SessionState) (href : String)
    (o : FetchOutcome) : SessionState × Except String PageEntry :=
  ({ cache :=
       match settleResult fallbackTitle o with
       | .ok e => setEntry s.cache href e
       | .error _ => s.cache
     inflight := s.inflight.erase href
     netActive := s.netActive.erase href }, settleResult fallbackTitle o)

def exceptIsError {ε α : Type} : Except ε α → Bool
  | .error _ => true
  | .ok _ => false

/-- Events the session tier's event loop can interleave: a call to
`fetchAndCache` (from prefetch, click, or popstate) or the settling of a
previously issued network request. -/
inductive SessionEvent where
  | invoke (href : String)
  | settle (href : String) (o : FetchOutcome)

/-- One event-loop step.  A `settle` for an href with no issued request
is a no-op (the platform only settles fetches that were started). -/
def stepEvent (fallbackTitle : String) (s : SessionState) (ev : SessionEvent) :
    SessionState :=
  match ev with
  | .invoke href => (fetchAndCacheStep s href).1
  | .settle href o =>
    if href ∈ s.netActive then (settleStep fallbackTitle s href o).1 else s

/-- Startup: the current document is captured as the entry for the
current URL; nothing is in flight. -/
def initialState (href0 : String) (e0 : PageEntry) : SessionState :=
  { cache := [(href0, e0)], inflight := [], netActive := [] }

def runEvents (fallbackTitle href0 : String) (e0 : PageEntry)
    (evs : List SessionEvent) : SessionState :=
  evs.foldl (stepEvent fallbackTitle) (initialState href0 e0)

/-- The coupling invariant of the in-flight table: it lists each pending
URL once, and the network requests in flight are exactly its members. -/
def SessionInv (s : SessionState) : Prop :=
  s.inflight.Nodup ∧ s.netActive = s.inflight

/-! ## Head-node keys (`getHeadNodeKey`)

`JSON.stringify({ tagName, attributes, content: content ?? null })` with
the object-literal key order; attribute entries serialize in insertion
order, as `JSON.stringify` does for a plain object. -/

def jsonEscapeChar (c : Char) : String :=
  if c = '\\' then "\\\\"
  else if c = '"' then "\\\""
  else String.singleton c

def jsonQuote (s : String) : String :=
  "\"" ++ String.join (s.data.map jsonEscapeChar) ++ "\""

def tagNameStr : HeadTagKind → String
  | .style => "STYLE"
  | .link => "LINK"

def jsonAttributes (attrs : List (String × String)) : String :=
  "\x7b" ++
    String.intercalate ","
      (attrs.map (fun p => jsonQuote p.1 ++ ":" ++ jsonQuote p.2)) ++
  "\x7d"

def getHeadNodeKey (n : SerializedHeadNode) : String :=
  "\x7b\"tagName\":" ++ jsonQuote (tagNameStr n.tagName) ++
  ",\"attributes\":" ++ jsonAttributes n.attributes ++
  ",\"content\":" ++
    (match n.content with
     | some c => jsonQuote c
     | none => "null") ++
  "\x7d"

/-! ## Live head elements and `syncHeadNodes`

A head element is modelled with an identity (`id`, standing for DOM node
identity, so that removal/re-creation are observable), its
`data-prefetch-managed` flag, its `data-prefetch-managed-key` value, and
the serialized payload where one exists. -/

structure HeadElem where
  id : Nat
  managed : Bool
  key : Option String
  node : Option SerializedHeadNode
deriving DecidableEq, Repr

/-- `createElementFromSerialized`: a brand-new element (fresh identity)
carrying both managed attributes. -/
def mkManagedElem (id : Nat) (n : SerializedHeadNode) : HeadElem :=
  { id := id, managed := true, key := some (getHeadNodeKey n), node := some n }

/-- `document.head.querySelector` for a key attribute: find the first
element satisfying `p` and remove it from the head (appending a live
element to a fragment detaches it from the document). -/
def extractFirst (p : HeadElem → Bool) :
    List HeadElem → Option (HeadElem × List HeadElem)
  | [] => none
  | e :: rest =>
    if p e then some (e, rest)
    else
      match extractFirst p rest with
      | some (x, rest') => some (x, e :: rest')
      | none => none

/-- The removal pass of `syncHeadNodes`: every managed element whose key
is missing or not desired is removed; unmanaged elements are not
candidates (the selector is `[data-prefetch-managed]`). -/
def keptByRemoval (desiredKeys : List String) (head : List HeadElem) :
    List HeadElem :=
  head.filter (fun e =>
    !e.managed ||
      match e.key with
      | some k => desiredKeys.contains k
      | none => false)

/-- The fragment-building pass: for each desired node in order, move the
first element with a matching key attribute out of the head into the
fragment, or create a new element from the serialized node; `fresh`
feeds identities for created elements.  Returns the elements left in
the head, the fragment, and the next fresh identity. -/
def buildFragment : List SerializedHeadNode → List HeadElem → Nat →
    List HeadElem × List HeadElem × Nat
  | [], remaining, fresh => (remaining, [], fresh)
  | n :: rest, remaining, fresh =>
    match extractFirst (fun e => e.key == some (getHeadNodeKey n)) remaining with
    | some (e, remaining') =>
      let r := buildFragment rest remaining' fresh
      (r.1, e :: r.2.1, r.2.2)
    | none =>
      let r := buildFragment rest remaining (fresh + 1)
      (r.1, mkManagedElem fresh n :: r.2.1, r.2.2)

/-- `syncHeadNodes` (lines 160–188): removal pass, fragment build, then
`document.head.append(fragment)` places the fragment's children at the
end of the head. -/
def syncHeadNodes (head : List HeadElem) (nodes : List SerializedHeadNode)
    (fresh : Nat) : List HeadElem × Nat :=
  let kept := keptByRemoval (nodes.map getHeadNodeKey) head
  let r := buildFragment nodes kept fresh
  (r.1 ++ r.2.1, r.2.2)

/-- The unmanaged head elements, in document order. -/
def unmanagedOnly (l : List HeadElem) : List HeadElem :=
  l.filter (fun e => !e.managed)

/-- The script only sets `data-prefetch-managed-key` together with
`data-prefetch-managed` (`ensureManagedAttributes`,
`createElementFromSerialized`), so unmanaged elements carry no key
attribute. -/
def NoStrayKeys (l : List HeadElem) : Prop :=
  ∀ e ∈ l, e.managed = false → e.key = none

/-! ## Anchors, events, intent and click handlers -/

structure Anchor where
  href : Option Url
  target : String
  hasDownloadAttr : Bool
  relAttr : Option String
deriving DecidableEq, Repr

structure ClickEvent where
  defaultPrevented : Bool
  button : Nat
  metaKey : Bool
  ctrlKey : Bool
  shiftKey : Bool
  altKey : Bool
  targetAnchor : Option Anchor
deriving DecidableEq, Repr

/-- `isModifyingClick` (both variants). -/
def isModifyingClick (e : ClickEvent) : Bool :=
  e.defaultPrevented || e.button != 0 || e.metaKey || e.ctrlKey ||
    e.shiftKey || e.altKey

/-- `getAnchorFromEvent` (both variants agree semantically): the nearest
enclosing anchor, rejected when it has no resolvable href, opens in a
new context, or is marked for download/external handling. -/
def getAnchorFromEvent (nearestAnchor : Option Anchor) : Option Anchor :=
  match nearestAnchor with
  | none => none
  | some a =>
    if a.href.isNone then none
    else if a.target ≠ "" && a.target ≠ "_self" then none
    else if a.hasDownloadAttr || a.relAttr == some "external" then none
    else some a

/-- The ambient page context read by the handlers: `window.location`,
`window.scrollY`, and the module-level `currentUrl` variable. -/
structure PageContext where
  location : Url
  scrollY : Int
  currentUrl : String
deriving DecidableEq, Repr

/-- The externally visible primitive steps of the click path, in program
order: `event.preventDefault()`, the `history.replaceState` persisting
the outgoing scroll offset, and the start of `fetchAndCache` for the
destination (the first asynchronous work). -/
inductive NavAction where
  | preventDefault
  | persistScroll (y : Int)
  | fetchStart (href : String)
deriving DecidableEq, Repr

/-- The synchronous prefix of `navigateTo` (lines 325–338): persist the
current scroll offset into the current history entry, then begin the
fetch of the destination. -/
def navigateToSyncActions (ctx : PageContext) (url : Url) : List NavAction :=
  [.persistScroll ctx.scrollY, .fetchStart url.href]

/-- The capture-phase click listener of the first variant
(lines 362–389), as the sequence of primitive actions it performs. -/
def clickActions (ctx : PageContext) (event : ClickEvent) : List NavAction :=
  match getAnchorFromEvent event.targetAnchor with
  | none => []
  | some anchor =>
    if isModifyingClick event then []
    else
      match anchor.href with
      | none => []
      | some url =>
        if url.origin ≠ ctx.location.origin then []
        else if isSameDocumentNavigation url ctx.location then []
        else if url.href == ctx.currentUrl then []
        else .preventDefault :: navigateToSyncActions ctx url

/-- The click listener of the second variant (lines 596–620): identical
except that it has no `isSameDocumentNavigation` guard. -/
def clickActionsV2 (ctx : PageContext) (event : ClickEvent) : List NavAction :=
  match getAnchorFromEvent event.targetAnchor with
  | none => []
  | some anchor =>
    if isModifyingClick event then []
    else
      match anchor.href with
      | none => []
      | some url =>
        if url.origin ≠ ctx.location.origin then []
        else if url.href == ctx.currentUrl then []
        else .preventDefault :: navigateToSyncActions ctx url

/-- `handleIntent` (first variant, lines 340–356): the URL prefetched on
hover/focus/touch, or `none` when the event is not intercepted. -/
def handleIntent (ctx : PageContext) (target : Option Anchor) : Option String :=
  match getAnchorFromEvent target with
  | none => none
  | some anchor =>
    match anchor.href with
    | none => none
    | some url =>
      if url.origin ≠ ctx.location.origin then none
      else if isSameDocumentNavigation url ctx.location then none
      else if url.href == ctx.currentUrl then none
      else some url.href

/-- `handleIntent` (second variant, lines 577–590): no
`isSameDocumentNavigation` guard. -/
def handleIntentV2 (ctx : PageContext) (target : Option Anchor) :
    Option String :=
  match getAnchorFromEvent target with
  | none => none
  | some anchor =>
    match anchor.href with
    | none => none
    | some url =>
      if url.origin ≠ ctx.location.origin then none
      else if url.href == ctx.currentUrl then none
      else some url.href

/-! ## `render` and the popstate handler -/

/-- One browser history entry: its URL and the `scrollY` field of its
state payload (absent when the state carries no numeric `scrollY`). -/
structure HistEntry where
  url : Url
  stateScrollY : Option Int
deriving DecidableEq, Repr

/-- The mutable state `render` touches: the session cache, the tracked
current URL, the live document (content region, title, managed head
set), the history (current entry plus the back stack), and the window
scroll position. -/
structure ManagerState where
  cache : List (String × PageEntry)
  currentUrl : String
  contentHtml : String
  title : String
  managedHead : List SerializedHeadNode
  currentEntry : HistEntry
  backStack : List HistEntry
  scrollY : Int
deriving Repr

/-- The re-capture of the currently displayed document performed at the
top of `render`. -/
def captureCurrentEntry (s : ManagerState) : PageEntry :=
  { html := s.contentHtml, title := s.title, headNodes := s.managedHead }

/-- `render` (lines 301–323): re-capture the outgoing page, swap in the
new head nodes, content and title, push or replace the history entry
(both record `scrollY` in the entry's state), update `currentUrl`,
scroll to `scrollY`, and focus the content region. -/
def render (s : ManagerState) (url : Url) (entry : PageEntry)
    (pushState : Bool) (scrollY : Int) : ManagerState :=
  let s1 := { s with
    cache := setEntry s.cache s.currentUrl (captureCurrentEntry s)
    managedHead := entry.headNodes
    contentHtml := entry.html
    title := entry.title }
  let s2 :=
    if pushState then
      { s1 with backStack := s1.currentEntry :: s1.backStack
                currentEntry := { url := url, stateScrollY := some scrollY } }
    else
      { s1 with currentEntry := { url := url, stateScrollY := some scrollY } }
  { s2 with currentUrl := url.href, scrollY := scrollY }

/-- The scroll target the popstate listener computes:
`event.state && typeof event.state.scrollY === 'number' ?
event.state.scrollY : 0`.  `none` models a null state, `some none` a
state object without a numeric `scrollY`. -/
def popScrollY (eventState : Option (Option Int)) : Int :=
  match eventState with
  | some (some y) => y
  | _ => 0

inductive NavOutcome where
  | swapped (s : ManagerState)
  | fullNavigation (href : String)

/-- The popstate listener (lines 391–401), parameterized by the outcome
of the `fetchAndCache` it awaits.  Returns the href it fetch-and-caches
(always the now-current location) together with the resulting action:
a content swap via `render` with `pushState := false`, or a full
browser navigation on failure. -/
def popstateHandler (s : ManagerState) (eventState : Option (Option Int))
    (fetchResult : Except String PageEntry) : String × NavOutcome :=
  let url := s.currentEntry.url
  (url.href,
    match fetchResult with
    | .error _ => .fullNavigation url.href
    | .ok entry => .swapped (render s url entry false (popScrollY eventState)))

end PrefetchNav

namespace CacheWorker

/-! ## The Persistent Cache Worker (service worker source)

Store names, lifecycle steps over the set of existing cache-store
names, the fetch-event classifier, and the two response strategies. -/

def HTML_CACHE : String := "html-v1"

def STATIC_CACHE : String := "static-v2"

def SHELL_URLS : List String := ["/"]

/-- `caches.open(name)` creates the store when absent. -/
def cachesOpen (stores : List String) (name : String) : List String :=
  if name ∈ stores then stores else stores ++ [name]

/-- The install listener's effect on the set of store names: open the
HTML store (and pre-populate the shell set, which does not change the
set of store names), then open the static store. -/
def installStep (stores : List String) : List String :=
  cachesOpen (cachesOpen stores HTML_CACHE) STATIC_CACHE

/-- The activate listener: delete every store whose name is not in the
expected pair. -/
def activateStep (stores : List String) : List String :=
  stores.filter (fun n => n == HTML_CACHE || n == STATIC_CACHE)

/-- A worker upgrade as seen by the store namespace: the new worker's
install step followed by its activate step. -/
def upgradeStep (stores : List String) : List String :=
  activateStep (installStep stores)

/-- The request fields the fetch listener and `shouldBypassCaching`
inspect. -/
structure SWRequest where
  method : String
  mode : String
  destination : String
  acceptHeader : Option String
  saveDataHeader : Option String
  reducedDataHeader : Option String
  urlOrigin : String
  pathname : String
deriving DecidableEq, Repr

structure SWEnv where
  connectionSaveData : Bool
  selfOrigin : String
deriving DecidableEq, Repr

/-- `shouldBypassCaching`: connection `saveData`, a `Save-Data: on`
header, or a `Sec-CH-Prefers-Reduced-Data: 1` header. -/
def shouldBypassCaching (env : SWEnv) (req : SWRequest) : Bool :=
  env.connectionSaveData || req.saveDataHeader == some "on" ||
    req.reducedDataHeader == some "1"

/-- `String.prototype.includes` over the character list. -/
def startsWithChars : List Char → List Char → Bool
  | _, [] => true
  | [], _ :: _ => false
  | a :: as, b :: bs => a == b && startsWithChars as bs

def charsContain : List Char → List Char → Bool
  | [], pat => pat.isEmpty
  | l@(_ :: rest), pat => startsWithChars l pat || charsContain rest pat

def stringIncludes (s pat : String) : Bool :=
  charsContain s.data pat.data

/-- `String.prototype.startsWith`. -/
def stringStartsWith (s pat : String) : Bool :=
  startsWithChars s.data pat.data

/-- `String.prototype.endsWith`. -/
def stringEndsWith (s pat : String) : Bool :=
  startsWithChars s.data.reverse pat.data.reverse

inductive FetchRoute where
  | passThrough
  | htmlRoute
  | staticAssetRoute
deriving DecidableEq, Repr

/-- The fetch listener's dispatch (lines 131–164): non-GET, reduced-data
and cross-origin requests pass through; navigations and requests
accepting HTML go to `handleHtmlRequest`; scripts, styles, fonts and
paths under `/assets/` go to `handleStaticAssetRequest`; everything
else passes through. -/
def classifyFetch (env : SWEnv) (req : SWRequest) : FetchRoute :=
  if req.method ≠ "GET" then .passThrough
  else if shouldBypassCaching env req then .passThrough
  else if req.urlOrigin ≠ env.selfOrigin then .passThrough
  else
    let accept := req.acceptHeader.getD ""
    if req.mode == "navigate" || stringIncludes accept "text/html" then
      .htmlRoute
    else
      let isFontRequest :=
        req.destination == "font" || stringEndsWith req.pathname ".woff2"
      if stringStartsWith req.pathname "/assets/" ||
         stringEndsWith req.pathname ".js" ||
         stringEndsWith req.pathname ".css" || isFontRequest then
        .staticAssetRoute
      else .passThrough

structure SWResponse where
  ok : Bool
  body : String
deriving DecidableEq, Repr

/-- The network outcome for one request: a response (possibly non-OK) or
a rejected fetch. -/
inductive NetResult where
  | resp (r : SWResponse)
  | failed
deriving DecidableEq, Repr

/-- `handleStaticAssetRequest` (lines 196–221), as a function of the
cached entry for the request and the network outcome.  Returns the
response delivered to the caller (`Except.error ()` models the rethrown
network error) and the cache entry for the request afterwards. -/
def handleStaticAssetRequest (cached : Option SWResponse) (net : NetResult) :
    Except Unit SWResponse × Option SWResponse :=
  match net with
  | .resp r =>
    if r.ok then (.ok r, some r)
    else
      match cached with
      | some c => (.ok c, cached)
      | none => (.ok r, cached)
  | .failed =>
    match cached with
    | some c => (.ok c, cached)
    | none => (.error (), cached)

/-- `handleHtmlRequest` (lines 166–194): stale-while-revalidate.  The
cache entry is overwritten exactly when the network fetch resolves with
an OK response (whether it ran in the background or in the foreground);
the delivered response is the cached one when present, otherwise the
network outcome itself. -/
def handleHtmlRequest (cached : Option SWResponse) (net : NetResult) :
    Except Unit SWResponse × Option SWResponse :=
  let finalEntry :=
    match net with
    | .resp r => if r.ok then some r else cached
    | .failed => cached
  match cached with
  | some c => (.ok c, finalEntry)
  | none =>
    match net with
    | .resp r => (.ok r, finalEntry)
    | .failed => (.error (), finalEntry)

end CacheWorker

namespace RegisterSW

/-! ## The registration script (`register-service-worker.ts`) -/

/-- The `statechange` listener installed by `watchWorker`: reload
exactly when the watched worker reaches `activated` and a controller
existed when `register` ran. -/
def reloadOnStateChange (hasExistingController : Bool)
    (workerState : String) : Bool :=
  workerState == "activated" && hasExistingController

/-- Number of reloads triggered over a sequence of observed
`statechange` states of the newly registered worker. -/
def reloadCount (hasExistingController : Bool) (states : List String) : Nat :=
  (states.filter (fun st => reloadOnStateChange hasExistingController st)).length

end RegisterSW

namespace PrefetchNav

theorem sessionInv_initial (href0 : String) (e0 : PageEntry) :
    SessionInv (initialState href0 e0) := by
  constructor <;> simp [initialState]

theorem sessionInv_step (fallbackTitle : String) (s : SessionState)
    (ev : SessionEvent) (h : SessionInv s) :
    SessionInv (stepEvent fallbackTitle s ev) := by
  obtain ⟨hnd, heq⟩ := h
  cases ev with
  | invoke href =>
    simp only [stepEvent, fetchAndCacheStep]
    cases hc : s.cache.lookup href with
    | some e => exact ⟨hnd, heq⟩
    | none =>
      by_cases hm : href ∈ s.inflight
      · simp [hm]; exact ⟨hnd, heq⟩
      · simp [hm]
        exact ⟨List.nodup_cons.mpr ⟨hm, hnd⟩, by rw [heq]⟩
  | settle href o =>
    simp only [stepEvent]
    by_cases hm : href ∈ s.netActive
    · simp [hm, settleStep]
      exact ⟨hnd.erase href, by rw [heq]⟩
    · simp [hm]; exact ⟨hnd, heq⟩

theorem sessionInv_run (fallbackTitle href0 : String) (e0 : PageEntry)
    (evs : List SessionEvent) :
    SessionInv (runEvents fallbackTitle href0 e0 evs) := by
  rw [runEvents]
  induction evs generalizing href0 e0 with
  | nil => exact sessionInv_initial href0 e0
  | cons ev rest ih =>
    rw [List.foldl_cons]
    have h1 := sessionInv_step fallbackTitle (initialState href0 e0) ev
      (sessionInv_initial href0 e0)
    clear ih
    generalize stepEvent fallbackTitle (initialState href0 e0) ev = s1 at h1
    induction rest generalizing s1 with
    | nil => exact h1
    | cons ev2 rest2 ih2 =>
      rw [List.foldl_cons]
      exact ih2 _ (sessionInv_step fallbackTitle s1 ev2 h1)

/-- C1: the session tier has at most one network request in flight per
URL at any time.  In every state reachable by any interleaving of
`fetchAndCache` invocations (prefetch or click triggers) and fetch
settlements, at most one issued network request for each URL is
pending; and an invocation for a URL whose fetch is still pending (and
which has no cached `PageEntry`) returns the already-pending shared
promise and leaves the state — in particular the set of issued
requests — unchanged. -/
theorem fetchAndCache_single_inflight_request (fallbackTitle href0 : String)
    (e0 : PageEntry) (evs : List SessionEvent) (href : String) :
    (runEvents fallbackTitle href0 e0 evs).netActive.count href ≤ 1 ∧
    ((runEvents fallbackTitle href0 e0 evs).cache.lookup href = none →
      href ∈ (runEvents fallbackTitle href0 e0 evs).inflight →
      fetchAndCacheStep (runEvents fallbackTitle href0 e0 evs) href =
        (runEvents fallbackTitle href0 e0 evs, .sharedAwait)) := by
  obtain ⟨hnd, heq⟩ := sessionInv_run fallbackTitle href0 e0 evs
  constructor
  · rw [heq]
    exact List.nodup_iff_count_le_one.mp hnd href
  · intro hc hm
    simp [fetchAndCacheStep, hc, hm]

theorem fetchAndCache_single_inflight_request_witness :
    fetchAndCacheStep
        (runEvents "t" "https://h/" ⟨"", "t", []⟩ [SessionEvent.invoke "https://h/a"])
        "https://h/a" =
      (runEvents "t" "https://h/" ⟨"", "t", []⟩ [SessionEvent.invoke "https://h/a"],
        .sharedAwait) :=
  (fetchAndCache_single_inflight_request "t" "https://h/" ⟨"", "t", []⟩
      [SessionEvent.invoke "https://h/a"] "https://h/a").2
    (by decide) (by decide)

/-- C9: the `fetchAndCache` promise rejects, storing no `PageEntry`,
exactly when the arrived response is non-OK or the parsed document has
no `#content-root`; on success the entry is stored under the URL; and
whatever the outcome (including a rejected fetch), the in-flight entry
for the URL is removed, so a later invocation for the same URL (still
uncached) issues a fresh request. -/
theorem fetchAndCache_failure_and_inflight_cleanup (fallbackTitle : String)
    (s : SessionState) (href : String) (o : FetchOutcome) (r : FetchResponse)
    (hnd : s.inflight.Nodup) :
    (exceptIsError (processResponse fallbackTitle r) = true ↔
      (r.ok = false ∨ r.contentRootHtml = none)) ∧
    (exceptIsError (processResponse fallbackTitle r) = true →
      (settleStep fallbackTitle s href (.response r)).1.cache = s.cache) ∧
    (∀ e, processResponse fallbackTitle r = .ok e →
      (settleStep fallbackTitle s href (.response r)).1.cache.lookup href =
        some e) ∧
    href ∉ (settleStep fallbackTitle s href o).1.inflight ∧
    (exceptIsError (settleStep fallbackTitle s href o).2 = true →
      s.cache.lookup href = none →
      (fetchAndCacheStep (settleStep fallbackTitle s href o).1 href).2 =
        .started) := by
  refine ⟨?_, ?_, ?_, ?_, ?_⟩
  · unfold processResponse exceptIsError
    cases hok : r.ok with
    | false => simp
    | true =>
      cases hc : r.contentRootHtml with
      | none => simp
      | some html => simp
  · intro herr
    unfold settleStep settleResult
    cases hres : processResponse fallbackTitle r with
    | error msg => simp [hres]
    | ok e => rw [hres] at herr; simp [exceptIsError] at herr
  · intro e he
    simp [settleStep, settleResult, he, setEntry, List.lookup]
  · intro hmem
    rcases (List.Nodup.mem_erase_iff hnd).mp hmem with ⟨hne, _⟩
    exact hne rfl
  · intro herr hlook
    have hcache : (settleStep fallbackTitle s href o).1.cache = s.cache := by
      unfold settleStep at herr ⊢
      cases hres : settleResult fallbackTitle o with
      | error msg => simp [hres]
      | ok e => rw [hres] at herr; simp [exceptIsError] at herr
    have hnm : href ∉ (settleStep fallbackTitle s href o).1.inflight := by
      intro hmem
      rcases (List.Nodup.mem_erase_iff hnd).mp hmem with ⟨hne, _⟩
      exact hne rfl
    rw [fetchAndCacheStep, hcache, hlook]
    simp [hnm]

theorem fetchAndCache_failure_and_inflight_cleanup_witness :
    exceptIsError
        (processResponse "t"
          ⟨true, 200, none, "Title", []⟩) = true ↔
      ((⟨true, 200, none, "Title", []⟩ : FetchResponse).ok = false ∨
        (⟨true, 200, none, "Title", []⟩ : FetchResponse).contentRootHtml = none) :=
  (fetchAndCache_failure_and_inflight_cleanup "t"
      ⟨[], ["https://h/a"], ["https://h/a"]⟩ "https://h/a"
      .networkError ⟨true, 200, none, "Title", []⟩ (by decide)).1

end PrefetchNav

namespace CacheWorker

theorem mem_cachesOpen_self (l : List String) (a : String) : a ∈ cachesOpen l a := by
  unfold cachesOpen
  split
  · assumption
  · simp

theorem mem_cachesOpen_of_mem (l : List String) (a b : String) (h : a ∈ l) :
    a ∈ cachesOpen l b := by
  unfold cachesOpen
  split
  · exact h
  · simp [h]

theorem mem_activateStep_iff (l : List String) (m : String) :
    m ∈ activateStep l ↔ m ∈ l ∧ (m = HTML_CACHE ∨ m = STATIC_CACHE) := by
  unfold activateStep
  rw [List.mem_filter]
  simp

/-- C4: on activation, every existing cache store whose name is not one
of the two currently expected names is deleted (a store survives
activation exactly when it already existed and bears one of the two
names); after an upgrade (install of the new worker, then activation)
the currently named pair exists, and any differently named store — in
particular one with an old version token — is no longer enumerable. -/
theorem activate_purges_stale_stores (stores : List String) (n : String) :
    (n ∈ activateStep stores ↔ n ∈ stores ∧ (n = HTML_CACHE ∨ n = STATIC_CACHE)) ∧
    HTML_CACHE ∈ upgradeStep stores ∧
    STATIC_CACHE ∈ upgradeStep stores ∧
    (n ≠ HTML_CACHE → n ≠ STATIC_CACHE → n ∉ upgradeStep stores) := by
  refine ⟨mem_activateStep_iff stores n, ?_, ?_, ?_⟩
  · unfold upgradeStep installStep
    exact (mem_activateStep_iff _ _).mpr
      ⟨mem_cachesOpen_of_mem _ _ _ (mem_cachesOpen_self stores HTML_CACHE),
        Or.inl rfl⟩
  · unfold upgradeStep installStep
    exact (mem_activateStep_iff _ _).mpr
      ⟨mem_cachesOpen_self _ STATIC_CACHE, Or.inr rfl⟩
  · intro h1 h2 hmem
    unfold upgradeStep at hmem
    rcases ((mem_activateStep_iff _ _).mp hmem).2 with h | h
    · exact h1 h
    · exact h2 h

theorem activate_purges_stale_stores_witness :
    "html-v0" ∉ upgradeStep ["html-v0", "static-v2"] :=
  (activate_purges_stale_stores ["html-v0", "static-v2"] "html-v0").2.2.2
    (by decide) (by decide)

/-- C2: a same-origin GET request classified as a static asset (script,
style, font, or a path under `/assets/`) is answered network-first: an
OK network response is stored and returned; on a non-OK response or a
rejected fetch the cached copy, when one exists, is returned with the
entry left unchanged; with no cached copy the network's own failure
outcome is propagated to the caller — the non-OK response itself, or
the rethrown network error. -/
theorem static_assets_network_first (env : SWEnv) (req : SWRequest)
    (cached : Option SWResponse) (net : NetResult)
    (hroute : classifyFetch env req = .staticAssetRoute) :
    (∀ r, net = .resp r → r.ok = true →
      handleStaticAssetRequest cached net = (.ok r, some r)) ∧
    (∀ r, net = .resp r → r.ok = false →
      (∀ c, cached = some c →
        handleStaticAssetRequest cached net = (.ok c, some c)) ∧
      (cached = none → handleStaticAssetRequest cached net = (.ok r, none))) ∧
    (net = .failed →
      (∀ c, cached = some c →
        handleStaticAssetRequest cached net = (.ok c, some c)) ∧
      (cached = none →
        handleStaticAssetRequest cached net = (.error (), none))) := by
  refine ⟨?_, ?_, ?_⟩
  · rintro r rfl hok
    simp [handleStaticAssetRequest, hok]
  · rintro r rfl hok
    constructor
    · rintro c rfl
      simp [handleStaticAssetRequest, hok]
    · rintro rfl
      simp [handleStaticAssetRequest, hok]
  · rintro rfl
    constructor
    · rintro c rfl
      simp [handleStaticAssetRequest]
    · rintro rfl
      simp [handleStaticAssetRequest]

theorem static_assets_network_first_witness :
    handleStaticAssetRequest none (.resp ⟨true, "body"⟩) =
      (.ok ⟨true, "body"⟩, some ⟨true, "body"⟩) :=
  (static_assets_network_first ⟨false, "https://o"⟩
      ⟨"GET", "no-cors", "script", none, none, none, "https://o", "/assets/app.js"⟩
      none (.resp ⟨true, "body"⟩) (by decide)).1
    ⟨true, "body"⟩ rfl rfl

/-- C3: a same-origin GET navigation/HTML request not bypassed by a
reduced-data signal is answered stale-while-revalidate: with a cached
response the cached copy is returned immediately and the entry is
overwritten exactly when the background fetch yields an OK response
(left unchanged on a non-OK response or a rejected fetch); with no
cached response the network fetch's own result becomes the response,
and a rejected fetch propagates the error to the caller. -/
theorem html_stale_while_revalidate (env : SWEnv) (req : SWRequest)
    (cached : Option SWResponse) (net : NetResult)
    (hroute : classifyFetch env req = .htmlRoute) :
    (∀ c, cached = some c →
      (handleHtmlRequest cached net).1 = .ok c ∧
      (∀ r, net = .resp r → r.ok = true →
        (handleHtmlRequest cached net).2 = some r) ∧
      (∀ r, net = .resp r → r.ok = false →
        (handleHtmlRequest cached net).2 = some c) ∧
      (net = .failed → (handleHtmlRequest cached net).2 = some c)) ∧
    (cached = none →
      (∀ r, net = .resp r →
        handleHtmlRequest cached net = (.ok r, if r.ok then some r else none)) ∧
      (net = .failed → handleHtmlRequest cached net = (.error (), none))) := by
  constructor
  · rintro c rfl
    refine ⟨?_, ?_, ?_, ?_⟩
    · cases net with
      | resp r => simp [handleHtmlRequest]
      | failed => simp [handleHtmlRequest]
    · rintro r rfl hok
      simp [handleHtmlRequest, hok]
    · rintro r rfl hok
      simp [handleHtmlRequest, hok]
    · rintro rfl
      simp [handleHtmlRequest]
  · rintro rfl
    constructor
    · rintro r rfl
      by_cases hok : r.ok <;> simp [handleHtmlRequest, hok]
    · rintro rfl
      simp [handleHtmlRequest]

theorem html_stale_while_revalidate_witness :
    (handleHtmlRequest (some ⟨true, "old"⟩) (.resp ⟨true, "new"⟩)).1 =
      .ok ⟨true, "old"⟩ :=
  ((html_stale_while_revalidate ⟨false, "https://o"⟩
      ⟨"GET", "navigate", "", some "text/html", none, none, "https://o", "/"⟩
      (some ⟨true, "old"⟩) (.resp ⟨true, "new"⟩) (by decide)).1
    ⟨true, "old"⟩ rfl).1

end CacheWorker

namespace RegisterSW

/-- C10: the `statechange` watcher reloads the page when the newly
registered worker reaches `activated` and a controlling worker existed
when the registration script ran; when no controller existed at
registration time, no state sequence ever triggers a reload. -/
theorem reload_iff_controller_and_activated (hasController : Bool)
    (states : List String) :
    (hasController = true → "activated" ∈ states →
      0 < reloadCount hasController states) ∧
    (hasController = false → reloadCount hasController states = 0) := by
  constructor
  · intro hc hm
    subst hc
    have hmem : "activated" ∈
        states.filter (fun st => reloadOnStateChange true st) := by
      rw [List.mem_filter]
      exact ⟨hm, by decide⟩
    unfold reloadCount
    exact List.length_pos_of_mem hmem
  · intro hc
    subst hc
    simp [reloadCount, reloadOnStateChange]

theorem reload_iff_controller_and_activated_witness :
    0 < reloadCount true ["installing", "installed", "activating", "activated"] :=
  (reload_iff_controller_and_activated true
      ["installing", "installed", "activating", "activated"]).1 rfl (by decide)

end RegisterSW

namespace PrefetchNav

/-- C5: for an eligible click — primary button, no modifier keys, not
already prevented, resolvable same-origin different-document link whose
href differs from the tracked current URL — the handler's action
sequence is exactly: prevent the default navigation, persist the
current scroll offset into the current history entry
(`history.replaceState`), and only then begin the asynchronous fetch of
the destination.  The scroll persist is therefore synchronous, before
any async work for the incoming page. -/
theorem click_persists_scroll_before_fetch (ctx : PageContext)
    (event : ClickEvent) (anchor : Anchor) (url : Url)
    (ha : getAnchorFromEvent event.targetAnchor = some anchor)
    (hhref : anchor.href = some url)
    (hmod : isModifyingClick event = false)
    (horig : url.origin = ctx.location.origin)
    (hsame : isSameDocumentNavigation url ctx.location = false)
    (hcur : url.href ≠ ctx.currentUrl) :
    clickActions ctx event =
      [.preventDefault, .persistScroll ctx.scrollY, .fetchStart url.href] := by
  simp [clickActions, ha, hmod, hhref, horig, hsame, hcur,
    navigateToSyncActions]

theorem click_persists_scroll_before_fetch_witness :
    clickActions
        ⟨⟨"https://h", "/a", "", ""⟩, 42, "https://h/a"⟩
        ⟨false, 0, false, false, false, false,
          some ⟨some ⟨"https://h", "/b", "", ""⟩, "", false, none⟩⟩ =
      [.preventDefault, .persistScroll 42, .fetchStart "https://h/b"] :=
  click_persists_scroll_before_fetch
    ⟨⟨"https://h", "/a", "", ""⟩, 42, "https://h/a"⟩
    ⟨false, 0, false, false, false, false,
      some ⟨some ⟨"https://h", "/b", "", ""⟩, "", false, none⟩⟩
    ⟨some ⟨"https://h", "/b", "", ""⟩, "", false, none⟩
    ⟨"https://h", "/b", "", ""⟩
    (by decide) rfl (by decide) rfl (by decide) (by decide)

/-- C6: on a history pop the manager fetch-and-caches exactly the
now-current URL and, when that fetch succeeds, swaps content without
pushing a new history entry (the back stack is unchanged) and restores
the vertical scroll position to the `scrollY` recorded in the popped
entry's state, or to `0` when the state is null or carries no numeric
`scrollY`. -/
theorem popstate_restores_recorded_scroll (s : ManagerState)
    (eventState : Option (Option Int)) (entry : PageEntry) :
    ∃ s',
      popstateHandler s eventState (.ok entry) =
        (s.currentEntry.url.href, .swapped s') ∧
      s'.backStack = s.backStack ∧
      s'.scrollY = popScrollY eventState ∧
      s'.contentHtml = entry.html ∧
      s'.title = entry.title ∧
      s'.currentEntry.stateScrollY = some (popScrollY eventState) ∧
      (∀ y : Int, popScrollY (some (some y)) = y) ∧
      popScrollY (some none) = 0 ∧
      popScrollY none = 0 := by
  refine ⟨render s s.currentEntry.url entry false (popScrollY eventState),
    rfl, ?_, ?_, ?_, ?_, ?_, ?_, ?_, ?_⟩ <;>
    simp [render, popScrollY]

/-- C7 counterexample: in the second variant, a link to the current
path+query that differs only in its hash is a same-document navigation,
yet the intent handler prefetches it and the click handler intercepts
it, because that variant only skips a link whose full href equals the
tracked current URL. -/
theorem same_document_link_intercepted_in_v2 :
    isSameDocumentNavigation
        ⟨"https://example.com", "/years/1999/", "", "#chart"⟩
        ⟨"https://example.com", "/years/1999/", "", ""⟩ = true ∧
    handleIntentV2
        ⟨⟨"https://example.com", "/years/1999/", "", ""⟩, 0,
          Url.href ⟨"https://example.com", "/years/1999/", "", ""⟩⟩
        (some ⟨some ⟨"https://example.com", "/years/1999/", "", "#chart"⟩,
          "", false, none⟩) =
      some (Url.href ⟨"https://example.com", "/years/1999/", "", "#chart"⟩) ∧
    clickActionsV2
        ⟨⟨"https://example.com", "/years/1999/", "", ""⟩, 0,
          Url.href ⟨"https://example.com", "/years/1999/", "", ""⟩⟩
        ⟨false, 0, false, false, false, false,
          some ⟨some ⟨"https://example.com", "/years/1999/", "", "#chart"⟩,
            "", false, none⟩⟩ ≠ [] := by
  decide

theorem getAnchorFromEvent_some_cases (a : Anchor) :
    getAnchorFromEvent (some a) = none ∨ getAnchorFromEvent (some a) = some a := by
  simp only [getAnchorFromEvent]
  split
  · exact Or.inl rfl
  · split
    · exact Or.inl rfl
    · split
      · exact Or.inl rfl
      · exact Or.inr rfl

/-- C7 amended: in the first (head-managing) variant, a link whose
target has the same path and query as the current location is never
intercepted: neither the intent handler nor the click handler prefetch
or navigate for it.  In the second variant the handlers skip a link
only when its full href (hash included) equals the tracked current URL;
a same-path+query link differing only in its hash is intercepted there. -/
theorem same_document_links_not_intercepted (ctx : PageContext) (a : Anchor)
    (url : Url) (e : ClickEvent) (hhref : a.href = some url) :
    (isSameDocumentNavigation url ctx.location = true →
      handleIntent ctx (some a) = none ∧
      (e.targetAnchor = some a → clickActions ctx e = [])) ∧
    (url.href = ctx.currentUrl →
      handleIntentV2 ctx (some a) = none ∧
      (e.targetAnchor = some a → clickActionsV2 ctx e = [])) := by
  constructor
  · intro hsame
    constructor
    · rcases getAnchorFromEvent_some_cases a with hg | hg
      · simp [handleIntent, hg]
      · by_cases horig : url.origin = ctx.location.origin
        · simp [handleIntent, hg, hhref, horig, hsame]
        · simp [handleIntent, hg, hhref, horig]
    · intro he
      rcases getAnchorFromEvent_some_cases a with hg | hg
      · simp [clickActions, he, hg]
      · by_cases hmod : isModifyingClick e = true
        · simp [clickActions, he, hg, hmod]
        · by_cases horig : url.origin = ctx.location.origin
          · simp [clickActions, he, hg, hhref, hmod, horig, hsame]
          · simp [clickActions, he, hg, hhref, hmod, horig]
  · intro hcur
    constructor
    · rcases getAnchorFromEvent_some_cases a with hg | hg
      · simp [handleIntentV2, hg]
      · by_cases horig : url.origin = ctx.location.origin
        · simp [handleIntentV2, hg, hhref, horig, hcur]
        · simp [handleIntentV2, hg, hhref, horig]
    · intro he
      rcases getAnchorFromEvent_some_cases a with hg | hg
      · simp [clickActionsV2, he, hg]
      · by_cases hmod : isModifyingClick e = true
        · simp [clickActionsV2, he, hg, hmod]
        · by_cases horig : url.origin = ctx.location.origin
          · simp [clickActionsV2, he, hg, hhref, hmod, horig, hcur]
          · simp [clickActionsV2, he, hg, hhref, hmod, horig]

theorem same_document_links_not_intercepted_witness :
    handleIntent
        ⟨⟨"https://example.com", "/a", "", ""⟩, 0, "https://example.com/a"⟩
        (some ⟨some ⟨"https://example.com", "/a", "", "#x"⟩, "", false, none⟩) =
      none :=
  ((same_document_links_not_intercepted
      ⟨⟨"https://example.com", "/a", "", ""⟩, 0, "https://example.com/a"⟩
      ⟨some ⟨"https://example.com", "/a", "", "#x"⟩, "", false, none⟩
      ⟨"https://example.com", "/a", "", "#x"⟩
      ⟨false, 0, false, false, false, false,
        some ⟨some ⟨"https://example.com", "/a", "", "#x"⟩, "", false, none⟩⟩
      rfl).1 (by decide)).1

end PrefetchNav

namespace PrefetchNav

theorem extractFirst_key_extract (k : String) (l : List HeadElem) :
    ∀ (e : HeadElem) (rem : List HeadElem), NoStrayKeys l →
      extractFirst (fun x => x.key == some k) l = some (e, rem) →
      e.managed = true ∧ unmanagedOnly rem = unmanagedOnly l ∧
        NoStrayKeys rem := by
  induction l with
  | nil => intro e rem _ h; simp [extractFirst] at h
  | cons x rest ih =>
    intro e rem hns h
    have hnsrest : NoStrayKeys rest := fun a ha => hns a (List.mem_cons_of_mem x ha)
    by_cases hx : (x.key == some k) = true
    · rw [extractFirst, if_pos hx] at h
      have hpair := Option.some.inj h
      have he : x = e := congrArg Prod.fst hpair
      have hrem : rest = rem := congrArg Prod.snd hpair
      subst he; subst hrem
      have hkey : x.key = some k := eq_of_beq hx
      have hman : x.managed = true := by
        cases hm : x.managed with
        | true => rfl
        | false =>
          have := hns x (List.mem_cons_self x rest) hm
          rw [this] at hkey; exact absurd hkey (by simp)
      refine ⟨hman, ?_, hnsrest⟩
      unfold unmanagedOnly
      rw [List.filter_cons_of_neg (by simp [hman])]
    · rw [extractFirst, if_neg hx] at h
      cases hrest : extractFirst (fun x => x.key == some k) rest with
      | none => rw [hrest] at h; simp at h
      | some pr =>
        obtain ⟨y, rest'⟩ := pr
        rw [hrest] at h
        have hpair := Option.some.inj h
        have he : y = e := congrArg Prod.fst hpair
        have hrem : x :: rest' = rem := congrArg Prod.snd hpair
        subst he; subst hrem
        obtain ⟨hman, hu, hn⟩ := ih y rest' hnsrest hrest
        refine ⟨hman, ?_, ?_⟩
        · unfold unmanagedOnly at hu ⊢
          cases hxm : x.managed with
          | true =>
            rw [List.filter_cons_of_neg (by simp [hxm]),
              List.filter_cons_of_neg (by simp [hxm])]
            exact hu
          | false =>
            rw [List.filter_cons_of_pos (by simp [hxm]),
              List.filter_cons_of_pos (by simp [hxm])]
            rw [hu]
        · intro a ha hm
          rcases List.mem_cons.mp ha with rfl | ha'
          · exact hns a (List.mem_cons_self a rest) hm
          · exact hn a ha' hm

theorem buildFragment_pres (nodes : List SerializedHeadNode) :
    ∀ (l : List HeadElem) (fresh : Nat), NoStrayKeys l →
      unmanagedOnly (buildFragment nodes l fresh).1 = unmanagedOnly l ∧
      (∀ e ∈ (buildFragment nodes l fresh).2.1, e.managed = true) := by
  induction nodes with
  | nil =>
    intro l fresh _
    refine ⟨rfl, ?_⟩
    intro e he
    simp [buildFragment] at he
  | cons n rest ih =>
    intro l fresh hns
    cases hext : extractFirst (fun e => e.key == some (getHeadNodeKey n)) l with
    | some pr =>
      obtain ⟨e, rem⟩ := pr
      obtain ⟨hman, hu, hn⟩ := extractFirst_key_extract (getHeadNodeKey n) l e rem hns hext
      obtain ⟨ihu, ihf⟩ := ih rem fresh hn
      constructor
      · show unmanagedOnly
          (match extractFirst (fun e => e.key == some (getHeadNodeKey n)) l with
           | some (e, remaining') =>
             ((buildFragment rest remaining' fresh).1,
               e :: (buildFragment rest remaining' fresh).2.1,
               (buildFragment rest remaining' fresh).2.2)
           | none =>
             ((buildFragment rest l (fresh + 1)).1,
               mkManagedElem fresh n :: (buildFragment rest l (fresh + 1)).2.1,
               (buildFragment rest l (fresh + 1)).2.2)).1 = unmanagedOnly l
        rw [hext]
        exact ihu.trans hu
      · intro a ha
        have ha' : a ∈ (((buildFragment rest rem fresh).1,
            e :: (buildFragment rest rem fresh).2.1,
            (buildFragment rest rem fresh).2.2) :
              List HeadElem × List HeadElem × Nat).2.1 := by
          revert ha
          show a ∈ (buildFragment (n :: rest) l fresh).2.1 → _
          simp only [buildFragment, hext]
          exact id
        rcases List.mem_cons.mp ha' with rfl | hfr
        · exact hman
        · exact ihf a hfr
    | none =>
      obtain ⟨ihu, ihf⟩ := ih l (fresh + 1) hns
      constructor
      · show unmanagedOnly
          (match extractFirst (fun e => e.key == some (getHeadNodeKey n)) l with
           | some (e, remaining') =>
             ((buildFragment rest remaining' fresh).1,
               e :: (buildFragment rest remaining' fresh).2.1,
               (buildFragment rest remaining' fresh).2.2)
           | none =>
             ((buildFragment rest l (fresh + 1)).1,
               mkManagedElem fresh n :: (buildFragment rest l (fresh + 1)).2.1,
               (buildFragment rest l (fresh + 1)).2.2)).1 = unmanagedOnly l
        rw [hext]
        exact ihu
      · intro a ha
        have ha' : a ∈ mkManagedElem fresh n :: (buildFragment rest l (fresh + 1)).2.1 := by
          revert ha
          show a ∈ (buildFragment (n :: rest) l fresh).2.1 → _
          simp only [buildFragment, hext]
          exact id
        rcases List.mem_cons.mp ha' with rfl | hfr
        · rfl
        · exact ihf a hfr

end PrefetchNav

namespace PrefetchNav

theorem unmanagedOnly_append (a b : List HeadElem) :
    unmanagedOnly (a ++ b) = unmanagedOnly a ++ unmanagedOnly b :=
  List.filter_append a b

theorem unmanagedOnly_keptByRemoval (ks : List String) (head : List HeadElem) :
    unmanagedOnly (keptByRemoval ks head) = unmanagedOnly head := by
  unfold unmanagedOnly keptByRemoval
  rw [List.filter_filter]
  apply List.filter_congr
  intro e _
  cases hm : e.managed <;> simp [hm]

theorem extractFirst_of_matched (k : String) (ks : List (Option String))
    (l : List HeadElem) :
    NoStrayKeys l →
    (l.filter (fun e => e.managed)).map (fun e => e.key) = some k :: ks →
    ∃ e rem, extractFirst (fun x => x.key == some k) l = some (e, rem) ∧
      l.filter (fun e => e.managed) = e :: rem.filter (fun e => e.managed) ∧
      unmanagedOnly rem = unmanagedOnly l ∧ NoStrayKeys rem ∧
      (rem.filter (fun e => e.managed)).map (fun e => e.key) = ks := by
  induction l with
  | nil => intro _ h; simp at h
  | cons x rest ih =>
    intro hns hmap
    have hnsrest : NoStrayKeys rest := fun a ha => hns a (List.mem_cons_of_mem x ha)
    cases hm : x.managed with
    | true =>
      rw [List.filter_cons_of_pos hm, List.map_cons] at hmap
      injection hmap with hk htl
      have hbeq : (x.key == some k) = true := by rw [hk]; simp
      refine ⟨x, rest, ?_, ?_, ?_, hnsrest, htl⟩
      · rw [extractFirst, if_pos hbeq]
      · rw [List.filter_cons_of_pos hm]
      · unfold unmanagedOnly
        rw [List.filter_cons_of_neg (by simp [hm])]
    | false =>
      have hkey : x.key = none := hns x (List.mem_cons_self x rest) hm
      rw [List.filter_cons_of_neg (by simp [hm])] at hmap
      obtain ⟨e, rem, hext, hfilt, hu, hns', hmap'⟩ := ih hnsrest hmap
      have hbeq : (x.key == some k) = false := by rw [hkey]; rfl
      refine ⟨e, x :: rem, ?_, ?_, ?_, ?_, ?_⟩
      · rw [extractFirst, if_neg (by rw [hbeq]; exact Bool.false_ne_true), hext]
      · rw [List.filter_cons_of_neg (by simp [hm]),
          List.filter_cons_of_neg (by simp [hm])]
        exact hfilt
      · unfold unmanagedOnly at hu ⊢
        rw [List.filter_cons_of_pos (by simp [hm]),
          List.filter_cons_of_pos (by simp [hm]), hu]
      · intro a ha hma
        rcases List.mem_cons.mp ha with rfl | ha'
        · exact hkey
        · exact hns' a ha' hma
      · rw [List.filter_cons_of_neg (by simp [hm])]
        exact hmap'

theorem buildFragment_of_matched (nodes : List SerializedHeadNode) :
    ∀ (l : List HeadElem) (fresh : Nat), NoStrayKeys l →
      (l.filter (fun e => e.managed)).map (fun e => e.key) =
        nodes.map (fun n => some (getHeadNodeKey n)) →
      buildFragment nodes l fresh =
        (unmanagedOnly l, l.filter (fun e => e.managed), fresh) := by
  induction nodes with
  | nil =>
    intro l fresh _ hmap
    simp only [List.map_nil] at hmap
    have hfm : l.filter (fun e => e.managed) = [] := by
      have := List.map_eq_nil_iff.mp hmap
      exact this
    have hun : unmanagedOnly l = l := by
      unfold unmanagedOnly
      apply List.filter_eq_self.mpr
      intro e he
      cases hm : e.managed with
      | false => simp
      | true =>
        exfalso
        have hmem : e ∈ l.filter (fun e => e.managed) :=
          List.mem_filter.mpr ⟨he, hm⟩
        rw [hfm] at hmem
        exact absurd hmem (List.not_mem_nil e)
    rw [buildFragment, hun, hfm]
  | cons n rest ih =>
    intro l fresh hns hmap
    rw [List.map_cons] at hmap
    obtain ⟨e, rem, hext, hfilt, hu, hns', hmap'⟩ :=
      extractFirst_of_matched (getHeadNodeKey n) _ l hns hmap
    have ihres := ih rem fresh hns' hmap'
    show (match extractFirst (fun e => e.key == some (getHeadNodeKey n)) l with
      | some (e, remaining') =>
        ((buildFragment rest remaining' fresh).1,
          e :: (buildFragment rest remaining' fresh).2.1,
          (buildFragment rest remaining' fresh).2.2)
      | none =>
        ((buildFragment rest l (fresh + 1)).1,
          mkManagedElem fresh n :: (buildFragment rest l (fresh + 1)).2.1,
          (buildFragment rest l (fresh + 1)).2.2)) =
      (unmanagedOnly l, l.filter (fun e => e.managed), fresh)
    rw [hext]
    show ((buildFragment rest rem fresh).1,
        e :: (buildFragment rest rem fresh).2.1,
        (buildFragment rest rem fresh).2.2) =
      (unmanagedOnly l, l.filter (fun e => e.managed), fresh)
    rw [ihres]
    show (unmanagedOnly rem, e :: List.filter (fun e => e.managed) rem, fresh) =
      (unmanagedOnly l, l.filter (fun e => e.managed), fresh)
    rw [hu, ← hfilt]

end PrefetchNav

namespace PrefetchNav

theorem keptByRemoval_of_matched (head : List HeadElem)
    (nodes : List SerializedHeadNode)
    (hmap : (head.filter (fun e => e.managed)).map (fun e => e.key) =
      nodes.map (fun n => some (getHeadNodeKey n))) :
    keptByRemoval (nodes.map getHeadNodeKey) head = head := by
  unfold keptByRemoval
  apply List.filter_eq_self.mpr
  intro e he
  cases hm : e.managed with
  | false => simp [hm]
  | true =>
    have hkmem : e.key ∈ (head.filter (fun e => e.managed)).map (fun e => e.key) :=
      List.mem_map_of_mem _ (List.mem_filter.mpr ⟨he, hm⟩)
    rw [hmap] at hkmem
    obtain ⟨n, hn, hkey⟩ := List.mem_map.mp hkmem
    rw [← hkey]
    simp only [Bool.not_true, Bool.false_or]
    show (nodes.map getHeadNodeKey).contains (getHeadNodeKey n) = true
    exact List.elem_iff.mpr (List.mem_map_of_mem _ hn)

/-- C8: head reconciliation is idempotent and safe for unmanaged
elements.  Provided unmanaged head elements carry no managed-key
attribute (which the script guarantees by setting both attributes
together), `syncHeadNodes` leaves the unmanaged elements — identity and
relative order — untouched for every desired node list; and when the
desired node set already exactly matches the managed elements in the
live head (ordered key agreement), the run removes no managed element
and re-creates nothing: the fresh-identity counter is unchanged (no
element constructed) and the resulting head is a permutation of the old
one (every element survives by identity). -/
theorem syncHeadNodes_idempotent (head : List HeadElem)
    (nodes : List SerializedHeadNode) (fresh : Nat)
    (hns : NoStrayKeys head) :
    unmanagedOnly (syncHeadNodes head nodes fresh).1 = unmanagedOnly head ∧
    ((head.filter (fun e => e.managed)).map (fun e => e.key) =
        nodes.map (fun n => some (getHeadNodeKey n)) →
      (syncHeadNodes head nodes fresh).2 = fresh ∧
      List.Perm (syncHeadNodes head nodes fresh).1 head) := by
  have hnskept : NoStrayKeys (keptByRemoval (nodes.map getHeadNodeKey) head) :=
    fun e he hm => hns e (List.mem_of_mem_filter he) hm
  constructor
  · obtain ⟨hu, hf⟩ := buildFragment_pres nodes
      (keptByRemoval (nodes.map getHeadNodeKey) head) fresh hnskept
    show unmanagedOnly
        ((buildFragment nodes (keptByRemoval (nodes.map getHeadNodeKey) head) fresh).1 ++
          (buildFragment nodes (keptByRemoval (nodes.map getHeadNodeKey) head) fresh).2.1) =
      unmanagedOnly head
    rw [unmanagedOnly_append]
    have hfrag : unmanagedOnly
        (buildFragment nodes (keptByRemoval (nodes.map getHeadNodeKey) head) fresh).2.1 = [] := by
      unfold unmanagedOnly
      apply List.filter_eq_nil_iff.mpr
      intro a ha
      simp [hf a ha]
    rw [hfrag, List.append_nil, hu, unmanagedOnly_keptByRemoval]
  · intro hmap
    have hkept : keptByRemoval (nodes.map getHeadNodeKey) head = head :=
      keptByRemoval_of_matched head nodes hmap
    have hbuild := buildFragment_of_matched nodes head fresh hns hmap
    constructor
    · show (buildFragment nodes (keptByRemoval (nodes.map getHeadNodeKey) head) fresh).2.2 = fresh
      rw [hkept, hbuild]
    · show List.Perm
        ((buildFragment nodes (keptByRemoval (nodes.map getHeadNodeKey) head) fresh).1 ++
          (buildFragment nodes (keptByRemoval (nodes.map getHeadNodeKey) head) fresh).2.1) head
      rw [hkept, hbuild]
      show List.Perm (unmanagedOnly head ++ head.filter (fun e => e.managed)) head
      have hperm := List.filter_append_perm (fun e => !e.managed) head
      have hcongr : head.filter (fun a => !(!a.managed)) =
          head.filter (fun e => e.managed) := by
        apply List.filter_congr
        intro a _
        simp
      rw [hcongr] at hperm
      exact hperm

theorem syncHeadNodes_idempotent_witness :
    (syncHeadNodes
        [⟨0, false, none, none⟩,
         ⟨1, true, some (getHeadNodeKey ⟨.style, [], some "body"⟩),
           some ⟨.style, [], some "body"⟩⟩]
        [⟨.style, [], some "body"⟩] 5).2 = 5 :=
  ((syncHeadNodes_idempotent
      [⟨0, false, none, none⟩,
       ⟨1, true, some (getHeadNodeKey ⟨.style, [], some "body"⟩),
         some ⟨.style, [], some "body"⟩⟩]
      [⟨.style, [], some "body"⟩] 5
      (by
        intro e he hm
        rcases List.mem_cons.mp he with rfl | he2
        · rfl
        · rcases List.mem_cons.mp he2 with rfl | he3
          · exact absurd hm (by simp)
          · exact absurd he3 (List.not_mem_nil _))).2 rfl).1

end PrefetchNav
